import Mathlib

/-!
Shallow embedding of the offline-first POS synchronization engine
(`src/lib/sync.ts`) together with the remote-store schema
(`supabase` SQL schema: tables `transactions` and `transaction_items`).

The Local Store module (`src/lib/db.ts`, IndexedDB) is not part of the
source tree; its operations are modelled from the specification's §4.1
contract and are marked as such in their doc comments.

Identifiers are modelled as `String` (UUIDs in the source), monetary
amounts as `Int` (DECIMAL in the source; the exact numeric type is
irrelevant to the properties proved here), and wall-clock time for the
retry delay as a `Nat` number of milliseconds.
-/

/-- Cart line item as stored inside a local `Transaction`
(`item.id` is the product id; see the `transactionItems` mapping in
`sync.ts` which sends `product_id: item.id`). -/
structure TransactionItem where
  id : String
  name : String
  price : Int
  quantity : Nat
deriving DecidableEq

/-- Local transaction record (`src/types` `Transaction` as used by
`sync.ts`: fields `id, date, subtotal, tax, total, status, items`). -/
structure Transaction where
  id : String
  date : String
  subtotal : Int
  tax : Int
  total : Int
  status : String
  items : List TransactionItem
deriving DecidableEq

/-- Product record (remote `products` table / local product cache). -/
structure Product where
  id : String
  name : String
  description : String
  price : Int
  stock : Int
  category : String
  image : String
deriving DecidableEq

/-- Persisted sync-state singleton of the Local Store.  `sync.ts` reads
`state.lastSync`, `state.pendingTransactions` and `state.isOnline` from
`db.getSyncState()`. -/
structure SyncState where
  lastSync : Option String
  pendingTransactions : List String
  isOnline : Bool
deriving DecidableEq

/-- Modelled from the spec: the Local Store (`src/lib/db.ts` is absent
from the source tree).  Per §4.1 it is a durable store with three
collections: Products keyed by id, Transactions keyed by id, and one
singleton SyncState record. -/
structure LocalStore where
  products : List Product
  transactions : List Transaction
  syncState : SyncState
deriving DecidableEq

namespace LocalStore

/-- Modelled from the spec (§4.1 `getTransaction`): look a transaction
up by id. -/
def getTransaction (l : LocalStore) (id : String) : Option Transaction :=
  l.transactions.find? (fun t => t.id == id)

/-- Modelled from the spec (§4.1 `saveTransaction`): keyed write — an
existing record with the same id is overwritten, otherwise the record
is appended. -/
def saveTransaction (l : LocalStore) (tx : Transaction) : LocalStore :=
  if l.transactions.any (fun t => t.id == tx.id) then
    { l with transactions := l.transactions.map (fun t => if t.id == tx.id then tx else t) }
  else
    { l with transactions := l.transactions ++ [tx] }

/-- Modelled from the spec (§4.1 `getSyncState`). -/
def getSyncState (l : LocalStore) : SyncState :=
  l.syncState

/-- Modelled from the spec (§4.1 `updateSyncState`): replace the
singleton record. -/
def updateSyncState (l : LocalStore) (s : SyncState) : LocalStore :=
  { l with syncState := s }

/-- Modelled from the spec (§4.1 `addPendingTransaction`):
`pendingTransactionIds` is a set of ids, so adding an id already
present is a no-op. -/
def addPendingTransaction (l : LocalStore) (id : String) : LocalStore :=
  if id ∈ l.syncState.pendingTransactions then l
  else
    { l with syncState :=
        { l.syncState with pendingTransactions := l.syncState.pendingTransactions ++ [id] } }

/-- Modelled from the spec (§4.1 `removePendingTransaction`). -/
def removePendingTransaction (l : LocalStore) (id : String) : LocalStore :=
  { l with syncState :=
      { l.syncState with pendingTransactions :=
          l.syncState.pendingTransactions.filter (fun x => !(x == id)) } }

/-- Modelled from the spec (§4.1 `clearProducts`). -/
def clearProducts (l : LocalStore) : LocalStore :=
  { l with products := [] }

/-- Modelled from the spec (§4.1 `saveProducts`, bulk wholesale
replace used by full refresh). -/
def saveProducts (l : LocalStore) (ps : List Product) : LocalStore :=
  { l with products := ps }

/-- Modelled from the spec (§4.1 `saveProduct`): keyed upsert of one
product into the cache. -/
def saveProduct (l : LocalStore) (p : Product) : LocalStore :=
  if l.products.any (fun q => q.id == p.id) then
    { l with products := l.products.map (fun q => if q.id == p.id then p else q) }
  else
    { l with products := l.products ++ [p] }

end LocalStore

/-- Row of the remote `transactions` table as written by `sync.ts`
(`supabaseTransaction`: transaction minus items, plus `user_id`). -/
structure SupabaseTransactionRow where
  id : String
  user_id : String
  date : String
  subtotal : Int
  tax : Int
  total : Int
  status : String
deriving DecidableEq

/-- Payload row sent to the remote `transaction_items` table by
`sync.ts` (the `transactionItems` mapping).  Note it carries NO `id`
field: the table's primary key `id UUID DEFAULT gen_random_uuid()` is
left to the database default. -/
structure TransactionItemPayload where
  transaction_id : String
  product_id : String
  name : String
  price : Int
  quantity : Nat
deriving DecidableEq

/-- Stored row of the remote `transaction_items` table
(schema: `id UUID PRIMARY KEY DEFAULT gen_random_uuid(), transaction_id,
product_id, name, price, quantity`).  The generated UUID key is
modelled as a `Nat` drawn from a freshness counter. -/
structure TransactionItemRow where
  id : Nat
  transaction_id : String
  product_id : String
  name : String
  price : Int
  quantity : Nat
deriving DecidableEq

/-- Remote Store state: the two tables `sync.ts` writes, plus the
freshness counter modelling `gen_random_uuid()` for the
`transaction_items` primary key. -/
structure RemoteStore where
  transactions : List SupabaseTransactionRow
  transaction_items : List TransactionItemRow
  nextItemRowId : Nat
deriving DecidableEq

namespace RemoteStore

/-- Upsert into the remote `transactions` table.  The payload carries
the primary key `id`, so a repeated upsert overwrites the existing row
(ON CONFLICT on the primary key). -/
def upsertTransactionRow (r : RemoteStore) (row : SupabaseTransactionRow) : RemoteStore :=
  if r.transactions.any (fun t => t.id == row.id) then
    { r with transactions := r.transactions.map (fun t => if t.id == row.id then row else t) }
  else
    { r with transactions := r.transactions ++ [row] }

/-- Upsert into the remote `transaction_items` table.  The upsert
resolves conflicts on the table's primary key `id`, but the payload
rows carry no `id`, so each row receives a fresh
`DEFAULT gen_random_uuid()` key, the conflict clause never fires, and
every delivery inserts brand-new rows. -/
def upsertTransactionItems (r : RemoteStore) (rows : List TransactionItemPayload) : RemoteStore :=
  { r with
      transaction_items := r.transaction_items ++
        rows.enum.map (fun pr =>
          { id := r.nextItemRowId + pr.1
            transaction_id := pr.2.transaction_id
            product_id := pr.2.product_id
            name := pr.2.name
            price := pr.2.price
            quantity := pr.2.quantity }),
      nextItemRowId := r.nextItemRowId + rows.length }

/-- Item rows currently stored for one transaction id. -/
def itemRowsFor (r : RemoteStore) (txId : String) : List TransactionItemRow :=
  r.transaction_items.filter (fun row => row.transaction_id == txId)

/-- The empty remote store. -/
def empty : RemoteStore :=
  { transactions := [], transaction_items := [], nextItemRowId := 0 }

end RemoteStore

/-- Environment outcome of one delivery attempt: whether
`supabase.auth.getUser()` returned a user, whether the `transactions`
upsert returned no error, and whether the `transaction_items` upsert
returned no error. -/
structure AttemptOutcome where
  authOk : Bool
  txOk : Bool
  itemsOk : Bool
deriving DecidableEq

/-- An attempt succeeds exactly when all three remote interactions
succeed. -/
def AttemptOutcome.ok (o : AttemptOutcome) : Bool :=
  o.authOk && o.txOk && o.itemsOk

/-- Result of one delivery attempt: the remote store afterwards,
whether the attempt as a whole succeeded, and whether the
`transaction_items` upsert was even attempted. -/
structure AttemptResult where
  remote : RemoteStore
  success : Bool
  itemsAttempted : Bool
deriving DecidableEq

namespace SyncService

/-- `this.maxRetries = 3` (constructor of `SyncService`). -/
def maxRetries : Nat := 3

/-- `this.retryDelay = 5000` milliseconds, i.e. 5 seconds
(constructor of `SyncService`). -/
def retryDelay : Nat := 5000

/-- The `supabaseTransaction` object built before the `transactions`
upsert: the transaction minus its items, plus the authenticated
`user_id`. -/
def supabaseTransaction (userId : String) (tx : Transaction) : SupabaseTransactionRow :=
  { id := tx.id
    user_id := userId
    date := tx.date
    subtotal := tx.subtotal
    tax := tx.tax
    total := tx.total
    status := tx.status }

/-- The `transactionItems` payload built before the
`transaction_items` upsert (`product_id: item.id`; no `id` field). -/
def transactionItems (tx : Transaction) : List TransactionItemPayload :=
  tx.items.map (fun item =>
    { transaction_id := tx.id
      product_id := item.id
      name := item.name
      price := item.price
      quantity := item.quantity })

/-- One delivery attempt for one transaction.  This block appears
verbatim twice in `sync.ts` — inside the retry loop of
`_syncTransactions` and inside the online branch of `saveTransaction`:
get the user (throw if none), upsert the transaction row (throw on
error, before the items upsert is reached), then upsert the item rows
(throw on error). -/
def attemptDeliver (userId : String) (tx : Transaction) (o : AttemptOutcome)
    (r : RemoteStore) : AttemptResult :=
  if !o.authOk then
    -- `throw new Error('No authenticated user found')`: nothing written
    { remote := r, success := false, itemsAttempted := false }
  else if !o.txOk then
    -- `transactionError` thrown: the transactions upsert failed, the
    -- items upsert is never reached
    { remote := r, success := false, itemsAttempted := false }
  else
    let r1 := r.upsertTransactionRow (supabaseTransaction userId tx)
    if !o.itemsOk then
      -- `itemsError` thrown after the transaction row was written
      { remote := r1, success := false, itemsAttempted := true }
    else
      { remote := r1.upsertTransactionItems (transactionItems tx),
        success := true, itemsAttempted := true }

end SyncService

/-- Whole-system state: the engine's in-memory fields (`this.isOnline`,
`this.isSyncing`), the Local Store, the Remote Store, the set of
transaction ids whose full delivery the engine has confirmed (the
specification's notion of "confirmed present in Remote Store"), and
instrumentation for the retry timing: a millisecond clock advanced by
`setTimeout`, and the log of delivery attempts `(transaction id, time)`. -/
structure World where
  isOnline : Bool
  isSyncing : Bool
  localStore : LocalStore
  remote : RemoteStore
  confirmed : List String
  clock : Nat
  log : List (String × Nat)
deriving DecidableEq

/-- Outcome `saveTransaction` reports to its caller: returned normally
(remote push succeeded), threw after a failed remote push (the
transaction was added to the pending set), or threw
`'Offline mode: Transaction saved locally'`. -/
inductive SaveOutcome where
  | synced
  | syncFailed
  | savedOffline
deriving DecidableEq

/-- Environment of one reconciliation pass: the authenticated user id,
the result of the products fetch (`none` models a fetch error), the
outcome of the n-th delivery attempt for each transaction id, and the
current time written to `lastSync`. -/
structure SyncEnv where
  userId : String
  fetchProducts : Option (List Product)
  pushOutcome : String → Nat → AttemptOutcome
  now : String

namespace SyncService

/-- `syncProducts(forceRefresh)`: fetch all products; on fetch error
throw (`none`).  If the fetched list is empty, return without touching
the cache.  Otherwise, with `forceRefresh`, clear the cache and
bulk-save the fetched set; without it, upsert each product
individually. -/
def syncProducts (l : LocalStore) (forceRefresh : Bool)
    (fetched : Option (List Product)) : Option LocalStore :=
  match fetched with
  | none => none
  | some ps =>
    if ps.isEmpty then
      some l
    else if forceRefresh then
      some ((l.clearProducts).saveProducts ps)
    else
      some (ps.foldl (fun acc p => acc.saveProduct p) l)

/-- The retry loop body of `_syncTransactions` for one pending
transaction: `while (retries < maxRetries)` attempt delivery; on
success remove the id from the pending set and stop; on failure, if
attempts remain, wait `retryDelay` and try again, otherwise leave the
loop (the id stays pending).  `remaining` counts the attempts still
allowed (`maxRetries - retries`), `attempt` the 0-based attempt
index.  Each attempt is recorded in the log at the current clock. -/
def attemptLoop (userId : String) (tx : Transaction) (out : Nat → AttemptOutcome) :
    Nat → Nat → World → World
  | 0, _, w => w
  | remaining + 1, attempt, w =>
    let res := attemptDeliver userId tx (out attempt) w.remote
    let w' : World :=
      { w with remote := res.remote, log := w.log ++ [(tx.id, w.clock)] }
    if res.success then
      { w' with
          localStore := w'.localStore.removePendingTransaction tx.id,
          confirmed := tx.id :: w'.confirmed }
    else if remaining = 0 then
      w'
    else
      attemptLoop userId tx out remaining (attempt + 1)
        { w' with clock := w'.clock + retryDelay }

/-- Body of the `_syncTransactions` loop for one loaded record:
`if (!transaction) continue` for a missing record, otherwise the
bounded retry loop. -/
def drainOne (env : SyncEnv) (w : World) (otx : Option Transaction) : World :=
  match otx with
  | none => w
  | some tx => attemptLoop env.userId tx (env.pushOutcome tx.id) maxRetries 0 w

/-- `_syncTransactions`: snapshot the pending ids, load each record
from the Local Store (`Promise.all` before the loop), skip missing
records, and run the bounded retry loop for each one in order. -/
def _syncTransactions (w : World) (env : SyncEnv) : World :=
  let txs := w.localStore.syncState.pendingTransactions.map
    (fun id => w.localStore.getTransaction id)
  txs.foldl (drainOne env) w

/-- `sync()` (the reconciliation entry point): no-op returning
immediately when offline or already syncing (`!this.isOnline ||
this.isSyncing`).  Otherwise set the in-flight guard, run the body
under a catch-all (a product-fetch error aborts the body: the
transaction drain and the `lastSync` stamp are skipped), and release
the guard.  The returned `Bool` tells whether the body was started. -/
def sync (w : World) (env : SyncEnv) : World × Bool :=
  if !w.isOnline || w.isSyncing then
    (w, false)
  else
    let w1 : World := { w with isSyncing := true }
    let w2 : World :=
      match syncProducts w1.localStore true env.fetchProducts with
      | none => w1
      | some l =>
        let w3 := _syncTransactions { w1 with localStore := l } env
        let st := w3.localStore.getSyncState
        { w3 with localStore := w3.localStore.updateSyncState { st with lastSync := some env.now } }
    ({ w2 with isSyncing := false }, true)

/-- `syncTransactions()` (the public drain entry point): throws when
offline or already syncing (modelled by returning `false` with the
state unchanged); otherwise drains the pending set and stamps
`lastSync`. -/
def syncTransactions (w : World) (env : SyncEnv) : World × Bool :=
  if !w.isOnline then
    (w, false)
  else if w.isSyncing then
    (w, false)
  else
    let w1 : World := { w with isSyncing := true }
    let w2 := _syncTransactions w1 env
    let st := w2.localStore.getSyncState
    let w3 : World :=
      { w2 with localStore := w2.localStore.updateSyncState { st with lastSync := some env.now } }
    ({ w3 with isSyncing := false }, true)

/-- `saveTransaction(transaction)` (the spec's `persistTransaction`):
save locally first, then read the persisted sync state; if
`state.isOnline`, attempt one direct push — on success stamp
`lastSync` and return normally, on failure add the id to the pending
set and rethrow; if the persisted state says offline, add the id to
the pending set and throw the offline error. -/
def saveTransaction (w : World) (tx : Transaction) (userId : String)
    (o : AttemptOutcome) (now : String) : World × SaveOutcome :=
  let l := w.localStore.saveTransaction tx
  let st := l.getSyncState
  if st.isOnline then
    let res := attemptDeliver userId tx o w.remote
    if res.success then
      ({ w with
           remote := res.remote,
           localStore := l.updateSyncState { st with lastSync := some now },
           confirmed := tx.id :: w.confirmed },
       SaveOutcome.synced)
    else
      ({ w with remote := res.remote, localStore := l.addPendingTransaction tx.id },
       SaveOutcome.syncFailed)
  else
    ({ w with localStore := l.addPendingTransaction tx.id },
     SaveOutcome.savedOffline)

/-- Declared result type of `getTransactionSyncStatus`:
`'synced' | 'pending' | 'error'`. -/
inductive SyncStatus where
  | synced
  | pending
  | error
deriving DecidableEq

/-- `getTransactionSyncStatus(transactionId)`: `'pending'` when the id
is in the persisted pending set, `'synced'` otherwise. -/
def getTransactionSyncStatus (l : LocalStore) (transactionId : String) : SyncStatus :=
  if transactionId ∈ l.syncState.pendingTransactions then
    SyncStatus.pending
  else
    SyncStatus.synced

/-- `getLastSyncTime()`. -/
def getLastSyncTime (l : LocalStore) : Option String :=
  l.getSyncState.lastSync

/-- The `'online'` event handler: set the in-memory flag and trigger
`sync()`.  It never writes the persisted `SyncState`'s `isOnline`
field. -/
def handleOnline (w : World) (env : SyncEnv) : World × Bool :=
  sync { w with isOnline := true } env

/-- The `'offline'` event handler: set the in-memory flag only. -/
def handleOffline (w : World) : World :=
  { w with isOnline := false }

end SyncService

/-- Initial state: empty Local and Remote Stores, the constructor's
defaults (`isSyncing = false`, no pending ids, no `lastSync`), with
the in-memory online flag (`navigator.onLine`) and the persisted
online hint both arbitrary. -/
def initialWorld (monitorOnline persistedOnline : Bool) : World :=
  { isOnline := monitorOnline
    isSyncing := false
    localStore :=
      { products := []
        transactions := []
        syncState := { lastSync := none, pendingTransactions := [], isOnline := persistedOnline } }
    remote := RemoteStore.empty
    confirmed := []
    clock := 0
    log := [] }

/-- States reachable from an initial state by the engine's public
operations: `saveTransaction` (with a freshly assigned transaction id,
per the data model's "globally unique identifier assigned by the
engine at creation time"), `sync`, the public `syncTransactions`, and
the connectivity events (the online handler triggers `sync`). -/
inductive Reachable : World → Prop
  | init (monitorOnline persistedOnline : Bool) :
      Reachable (initialWorld monitorOnline persistedOnline)
  | persist {w : World} (tx : Transaction) (userId : String) (o : AttemptOutcome) (now : String)
      (hfresh : tx.id ∉ w.localStore.transactions.map Transaction.id) :
      Reachable w → Reachable (SyncService.saveTransaction w tx userId o now).1
  | reconcile {w : World} (env : SyncEnv) :
      Reachable w → Reachable (SyncService.sync w env).1
  | drain {w : World} (env : SyncEnv) :
      Reachable w → Reachable (SyncService.syncTransactions w env).1
  | onlineEvent {w : World} (env : SyncEnv) :
      Reachable w → Reachable (SyncService.handleOnline w env).1
  | offlineEvent {w : World} :
      Reachable w → Reachable (SyncService.handleOffline w)

/-- Replace only the pending set of a Local Store; shape of every
Local-Store update a drain pass performs. -/
def LocalStore.setPending (l : LocalStore) (p : List String) : LocalStore :=
  { l with syncState := { l.syncState with pendingTransactions := p } }

/-- The pending-set correctness invariant (spec §3, §8): the persisted
pending set equals exactly the set of locally-stored transaction ids
not yet confirmed delivered to the Remote Store. -/
def pendingInv (w : World) : Prop :=
  ∀ id, id ∈ w.localStore.syncState.pendingTransactions ↔
    (id ∈ w.localStore.transactions.map Transaction.id ∧ id ∉ w.confirmed)

/-- Auxiliary invariant: every confirmed id is a locally-stored
transaction id (transactions are never deleted locally). -/
def confirmedClosed (w : World) : Prop :=
  ∀ id ∈ w.confirmed, id ∈ w.localStore.transactions.map Transaction.id

/-- Conjunction of the two inductive invariants. -/
def WorldInv (w : World) : Prop :=
  pendingInv w ∧ confirmedClosed w

/-- Concrete line item of the spec's end-to-end scenario
(`productId = P1, unitPrice = 2.99, quantity = 2`; prices in cents). -/
def sampleItem : TransactionItem :=
  { id := "p1", name := "Coffee", price := 299, quantity := 2 }

/-- Concrete transaction `T1` of the spec's end-to-end scenario. -/
def sampleTx : Transaction :=
  { id := "t1", date := "2024-01-01", subtotal := 598, tax := 30, total := 628,
    status := "completed", items := [sampleItem] }

/-- A concrete product for the full-refresh scenario. -/
def sampleProductA : Product :=
  { id := "a", name := "Coffee", description := "Freshly brewed coffee",
    price := 299, stock := 100, category := "beverages", image := "img-a" }

/-- A local store whose product cache holds exactly `sampleProductA`. -/
def sampleCacheA : LocalStore :=
  { products := [sampleProductA]
    transactions := []
    syncState := { lastSync := none, pendingTransactions := [], isOnline := true } }

/-- An environment in which every remote interaction succeeds. -/
def sampleEnv : SyncEnv :=
  { userId := "u1", fetchProducts := some [], pushOutcome := fun _ _ => ⟨true, true, true⟩,
    now := "2024-01-02" }

/-- An environment in which every delivery attempt fails at the items
upsert (the products fetch itself succeeds). -/
def sampleEnvFail : SyncEnv :=
  { userId := "u1", fetchProducts := some [], pushOutcome := fun _ _ => ⟨true, true, false⟩,
    now := "2024-01-02" }

/-- A world with `sampleTx` saved locally and pending, online, not
syncing. -/
def samplePendingWorld : World :=
  { isOnline := true
    isSyncing := false
    localStore :=
      { products := []
        transactions := [sampleTx]
        syncState := { lastSync := none, pendingTransactions := ["t1"], isOnline := true } }
    remote := RemoteStore.empty
    confirmed := []
    clock := 0
    log := [] }

/-- One successful delivery of `sampleTx`, as a function of the prior
remote state (used to compare single and double delivery). -/
def deliverSampleOnce (r : RemoteStore) : RemoteStore :=
  (SyncService.attemptDeliver "u1" sampleTx ⟨true, true, true⟩ r).remote

/-- Expected attempt times of a run of consecutive failing delivery
attempts starting at clock `c`: one attempt now, the next after
`retryDelay` has been waited out. -/
def attemptTimes (id : String) (c : Nat) : Nat → List (String × Nat)
  | 0 => []
  | r + 1 => (id, c) :: attemptTimes id (c + SyncService.retryDelay) r

/-- An outcome schedule on which every delivery attempt fails at the
user lookup. -/
def failOut : Nat → AttemptOutcome := fun _ => ⟨false, true, true⟩

/-- An attempt outcome in which the transaction upsert succeeds but
the items upsert fails. -/
def itemsFailOutcome : AttemptOutcome := ⟨true, true, false⟩

/-- An initial world whose in-flight-sync guard is set. -/
def syncingWorld : World := { initialWorld true true with isSyncing := true }

section StoreLemmas

/-- Adding a pending id yields membership in the pending set exactly
for the old members and the added id. -/
theorem LocalStore.mem_addPendingTransaction (l : LocalStore) (x id : String) :
    id ∈ (l.addPendingTransaction x).syncState.pendingTransactions ↔
      id ∈ l.syncState.pendingTransactions ∨ id = x := by
  unfold LocalStore.addPendingTransaction
  by_cases h : x ∈ l.syncState.pendingTransactions
  · simp only [h, if_true]
    constructor
    · exact fun hm => Or.inl hm
    · rintro (hm | rfl)
      · exact hm
      · exact h
  · simp [h, List.mem_append]

/-- Adding a pending id leaves every other field of the store
unchanged. -/
theorem LocalStore.addPendingTransaction_transactions (l : LocalStore) (x : String) :
    (l.addPendingTransaction x).transactions = l.transactions ∧
    (l.addPendingTransaction x).products = l.products ∧
    (l.addPendingTransaction x).syncState.isOnline = l.syncState.isOnline ∧
    (l.addPendingTransaction x).syncState.lastSync = l.syncState.lastSync := by
  unfold LocalStore.addPendingTransaction
  by_cases h : x ∈ l.syncState.pendingTransactions <;> simp [h]

/-- Removing a pending id yields membership exactly for the old
members other than the removed id. -/
theorem LocalStore.mem_removePendingTransaction (l : LocalStore) (x id : String) :
    id ∈ (l.removePendingTransaction x).syncState.pendingTransactions ↔
      id ∈ l.syncState.pendingTransactions ∧ id ≠ x := by
  unfold LocalStore.removePendingTransaction
  simp [List.mem_filter]

/-- Removing a pending id is a pending-set-only update. -/
theorem LocalStore.removePendingTransaction_setPending (l : LocalStore) (x : String) :
    l.removePendingTransaction x =
      l.setPending (l.syncState.pendingTransactions.filter (fun y => !(y == x))) := rfl

/-- Saving a transaction locally never touches the sync state or the
product cache. -/
theorem LocalStore.saveTransaction_syncState (l : LocalStore) (tx : Transaction) :
    (l.saveTransaction tx).syncState = l.syncState ∧
    (l.saveTransaction tx).products = l.products := by
  unfold LocalStore.saveTransaction
  by_cases h : l.transactions.any (fun t => t.id == tx.id) <;> simp [h]

/-- Saving a transaction whose id is fresh appends it to the log. -/
theorem LocalStore.saveTransaction_fresh (l : LocalStore) (tx : Transaction)
    (h : tx.id ∉ l.transactions.map Transaction.id) :
    (l.saveTransaction tx).transactions = l.transactions ++ [tx] := by
  unfold LocalStore.saveTransaction
  have hany : l.transactions.any (fun t => t.id == tx.id) = false := by
    rw [List.any_eq_false]
    intro t ht
    simp only [beq_iff_eq]
    intro he
    exact h (List.mem_map.mpr ⟨t, ht, he⟩)
  simp [hany]

/-- In a list that holds the key, replacing every record carrying the
key finds the replacement. -/
theorem find_overwrite (tx : Transaction) :
    ∀ ts : List Transaction, ts.any (fun t => t.id == tx.id) = true →
      (ts.map (fun t => if t.id == tx.id then tx else t)).find? (fun t => t.id == tx.id) =
        some tx
  | [], h => by simp at h
  | t :: ts, h => by
    by_cases ht : (t.id == tx.id) = true
    · rw [List.map_cons, if_pos ht, List.find?_cons_of_pos _ (by simp)]
    · have h' : ts.any (fun t => t.id == tx.id) = true := by
        simpa [List.any_cons, ht] using h
      rw [List.map_cons, if_neg ht,
        @List.find?_cons_of_neg _ (fun t => t.id == tx.id) t _ ht]
      exact find_overwrite tx ts h'

/-- In a list free of the key, appending a record carrying the key
finds the appended record. -/
theorem find_appended (tx : Transaction) :
    ∀ ts : List Transaction, (∀ t ∈ ts, (t.id == tx.id) = false) →
      (ts ++ [tx]).find? (fun t => t.id == tx.id) = some tx
  | [], _ => by
    rw [List.nil_append]
    exact List.find?_cons_of_pos _ (by simp)
  | t :: ts, h => by
    have h1 : (t.id == tx.id) = false := h t (by simp)
    rw [List.cons_append,
      @List.find?_cons_of_neg _ (fun t => t.id == tx.id) t _ (by simp [h1])]
    exact find_appended tx ts (fun u hu => h u (by simp [hu]))

/-- After a keyed save, looking the id up returns the saved record. -/
theorem LocalStore.getTransaction_saveTransaction (l : LocalStore) (tx : Transaction) :
    (l.saveTransaction tx).getTransaction tx.id = some tx := by
  unfold LocalStore.saveTransaction LocalStore.getTransaction
  by_cases h : l.transactions.any (fun t => t.id == tx.id) = true
  · simpa [h] using find_overwrite tx l.transactions h
  · have hall : ∀ t ∈ l.transactions, (t.id == tx.id) = false := by
      intro t ht
      cases hb : (t.id == tx.id) with
      | false => rfl
      | true => exact absurd (List.any_eq_true.mpr ⟨t, ht, hb⟩) h
    simpa [h] using find_appended tx l.transactions hall

/-- Looking a transaction up depends only on the transactions
collection. -/
theorem LocalStore.getTransaction_setPending (l : LocalStore) (p : List String) (id : String) :
    (l.setPending p).getTransaction id = l.getTransaction id := rfl

/-- Replacing the sync state keeps the transactions collection. -/
theorem LocalStore.updateSyncState_transactions (l : LocalStore) (s : SyncState) :
    (l.updateSyncState s).transactions = l.transactions := rfl

/-- A keyed product save never touches the transactions collection or
the sync state. -/
theorem LocalStore.saveProduct_frame (l : LocalStore) (p : Product) :
    (l.saveProduct p).transactions = l.transactions ∧
    (l.saveProduct p).syncState = l.syncState := by
  unfold LocalStore.saveProduct
  by_cases h : l.products.any (fun q => q.id == p.id) <;> simp [h]

end StoreLemmas

section EngineLemmas

/-- A delivery attempt succeeds exactly when the user lookup, the
transaction upsert and the items upsert all succeed. -/
theorem SyncService.attemptDeliver_success (userId : String) (tx : Transaction)
    (o : AttemptOutcome) (r : RemoteStore) :
    (SyncService.attemptDeliver userId tx o r).success = o.ok := by
  obtain ⟨a, b, c⟩ := o
  cases a <;> cases b <;> cases c <;> rfl

/-- The items upsert is reached only after the user lookup and the
transaction upsert succeeded. -/
theorem SyncService.attemptDeliver_itemsAttempted (userId : String) (tx : Transaction)
    (o : AttemptOutcome) (r : RemoteStore) :
    (SyncService.attemptDeliver userId tx o r).itemsAttempted = true →
      o.authOk = true ∧ o.txOk = true := by
  obtain ⟨a, b, c⟩ := o
  cases a <;> cases b <;> cases c <;> simp [SyncService.attemptDeliver]

/-- Frame of the retry loop: it can only shrink the pending set (a
pending-set-only update of the Local Store), it never touches the
in-memory flags, and it only appends to the attempt log. -/
theorem SyncService.attemptLoop_frame (userId : String) (tx : Transaction)
    (out : Nat → AttemptOutcome) :
    ∀ (remaining attempt : Nat) (w : World),
      (∃ p, (SyncService.attemptLoop userId tx out remaining attempt w).localStore =
          w.localStore.setPending p) ∧
      (SyncService.attemptLoop userId tx out remaining attempt w).isOnline = w.isOnline ∧
      (SyncService.attemptLoop userId tx out remaining attempt w).isSyncing = w.isSyncing ∧
      (∃ s, (SyncService.attemptLoop userId tx out remaining attempt w).log = w.log ++ s)
  | 0, _, w => by
    exact ⟨⟨w.localStore.syncState.pendingTransactions, rfl⟩, rfl, rfl,
      ⟨[], (List.append_nil _).symm⟩⟩
  | remaining + 1, attempt, w => by
    simp only [SyncService.attemptLoop]
    by_cases hs : (SyncService.attemptDeliver userId tx (out attempt) w.remote).success = true
    · rw [if_pos hs]
      exact ⟨⟨_, rfl⟩, rfl, rfl, ⟨[(tx.id, w.clock)], rfl⟩⟩
    · rw [if_neg hs]
      by_cases hr : remaining = 0
      · rw [if_pos hr]
        exact ⟨⟨w.localStore.syncState.pendingTransactions, rfl⟩, rfl, rfl,
          ⟨[(tx.id, w.clock)], rfl⟩⟩
      · rw [if_neg hr]
        obtain ⟨⟨p, hp⟩, ho, hsg, ⟨s, hl⟩⟩ :=
          SyncService.attemptLoop_frame userId tx out remaining (attempt + 1)
            { w with
                remote := (SyncService.attemptDeliver userId tx (out attempt) w.remote).remote,
                log := w.log ++ [(tx.id, w.clock)],
                clock := w.clock + SyncService.retryDelay }
        refine ⟨⟨p, hp⟩, ho, hsg, ⟨[(tx.id, w.clock)] ++ s, ?_⟩⟩
        rw [hl]
        simp

/-- Frame of one loop body of `_syncTransactions`. -/
theorem SyncService.drainOne_frame (env : SyncEnv) (w : World) (otx : Option Transaction) :
    (∃ p, (SyncService.drainOne env w otx).localStore = w.localStore.setPending p) ∧
    (SyncService.drainOne env w otx).isOnline = w.isOnline ∧
    (SyncService.drainOne env w otx).isSyncing = w.isSyncing ∧
    (∃ s, (SyncService.drainOne env w otx).log = w.log ++ s) := by
  cases otx with
  | none =>
    exact ⟨⟨w.localStore.syncState.pendingTransactions, rfl⟩, rfl, rfl,
      ⟨[], (List.append_nil _).symm⟩⟩
  | some tx =>
    exact SyncService.attemptLoop_frame env.userId tx (env.pushOutcome tx.id)
      SyncService.maxRetries 0 w

/-- Frame of the whole drain loop. -/
theorem SyncService.foldDrain_frame (env : SyncEnv) :
    ∀ (txs : List (Option Transaction)) (w : World),
      (∃ p, (txs.foldl (SyncService.drainOne env) w).localStore = w.localStore.setPending p) ∧
      (txs.foldl (SyncService.drainOne env) w).isOnline = w.isOnline ∧
      (txs.foldl (SyncService.drainOne env) w).isSyncing = w.isSyncing ∧
      (∃ s, (txs.foldl (SyncService.drainOne env) w).log = w.log ++ s)
  | [], w => by
    exact ⟨⟨w.localStore.syncState.pendingTransactions, rfl⟩, rfl, rfl,
      ⟨[], (List.append_nil _).symm⟩⟩
  | otx :: txs, w => by
    rw [List.foldl_cons]
    obtain ⟨⟨p1, hp1⟩, ho1, hs1, ⟨s1, hl1⟩⟩ := SyncService.drainOne_frame env w otx
    obtain ⟨⟨p2, hp2⟩, ho2, hs2, ⟨s2, hl2⟩⟩ :=
      SyncService.foldDrain_frame env txs (SyncService.drainOne env w otx)
    refine ⟨⟨p2, ?_⟩, by rw [ho2, ho1], by rw [hs2, hs1], ⟨s1 ++ s2, ?_⟩⟩
    · rw [hp2, hp1]
      rfl
    · rw [hl2, hl1]
      simp

/-- The product-cache fold preserves the transactions collection and
the sync state. -/
theorem SyncService.foldSaveProduct_frame :
    ∀ (ps : List Product) (l : LocalStore),
      (ps.foldl (fun acc p => acc.saveProduct p) l).transactions = l.transactions ∧
      (ps.foldl (fun acc p => acc.saveProduct p) l).syncState = l.syncState
  | [], _ => ⟨rfl, rfl⟩
  | p :: ps, l => by
    rw [List.foldl_cons]
    obtain ⟨h1, h2⟩ := SyncService.foldSaveProduct_frame ps (l.saveProduct p)
    obtain ⟨h3, h4⟩ := LocalStore.saveProduct_frame l p
    exact ⟨by rw [h1, h3], by rw [h2, h4]⟩

/-- A product sync, when it does not throw, changes only the product
cache. -/
theorem SyncService.syncProducts_frame (l : LocalStore) (b : Bool)
    (f : Option (List Product)) (l' : LocalStore)
    (h : SyncService.syncProducts l b f = some l') :
    l'.transactions = l.transactions ∧ l'.syncState = l.syncState := by
  cases f with
  | none => simp [SyncService.syncProducts] at h
  | some ps =>
    simp only [SyncService.syncProducts] at h
    by_cases he : ps.isEmpty = true
    · rw [if_pos he, Option.some_inj] at h
      rw [← h]
      exact ⟨rfl, rfl⟩
    · rw [if_neg he] at h
      by_cases hb : b = true
      · rw [if_pos hb, Option.some_inj] at h
        rw [← h]
        exact ⟨rfl, rfl⟩
      · rw [if_neg hb, Option.some_inj] at h
        rw [← h]
        exact SyncService.foldSaveProduct_frame ps l

/-- A retry-loop run in which every attempt fails leaves the Local
Store and the confirmed set untouched and logs one attempt per allowed
try, each `retryDelay` after the previous one. -/
theorem SyncService.attemptLoop_fail (userId : String) (tx : Transaction)
    (out : Nat → AttemptOutcome) (h : ∀ n, (out n).ok = false) :
    ∀ (remaining attempt : Nat) (w : World),
      (SyncService.attemptLoop userId tx out remaining attempt w).localStore = w.localStore ∧
      (SyncService.attemptLoop userId tx out remaining attempt w).confirmed = w.confirmed ∧
      (SyncService.attemptLoop userId tx out remaining attempt w).log =
        w.log ++ attemptTimes tx.id w.clock remaining
  | 0, _, w => ⟨rfl, rfl, by simp [SyncService.attemptLoop, attemptTimes]⟩
  | remaining + 1, attempt, w => by
    have hsucc : (SyncService.attemptDeliver userId tx (out attempt) w.remote).success = false := by
      rw [SyncService.attemptDeliver_success]
      exact h attempt
    simp only [SyncService.attemptLoop]
    rw [if_neg (by simp [hsucc])]
    by_cases hr : remaining = 0
    · subst hr
      rw [if_pos rfl]
      exact ⟨rfl, rfl, by simp [attemptTimes]⟩
    · rw [if_neg hr]
      obtain ⟨h1, h2, h3⟩ :=
        SyncService.attemptLoop_fail userId tx out h remaining (attempt + 1)
          { w with
              remote := (SyncService.attemptDeliver userId tx (out attempt) w.remote).remote,
              log := w.log ++ [(tx.id, w.clock)],
              clock := w.clock + SyncService.retryDelay }
      refine ⟨h1, h2, ?_⟩
      rw [h3]
      simp [attemptTimes]

/-- The retry loop preserves the pending-set invariant, provided the
transaction it delivers is locally stored. -/
theorem SyncService.attemptLoop_inv (userId : String) (tx : Transaction)
    (out : Nat → AttemptOutcome) :
    ∀ (remaining attempt : Nat) (w : World), WorldInv w →
      tx.id ∈ w.localStore.transactions.map Transaction.id →
      WorldInv (SyncService.attemptLoop userId tx out remaining attempt w)
  | 0, _, _, hw, _ => hw
  | remaining + 1, attempt, w, hw, htx => by
    obtain ⟨hp, hc⟩ := hw
    simp only [SyncService.attemptLoop]
    by_cases hs : (SyncService.attemptDeliver userId tx (out attempt) w.remote).success = true
    · rw [if_pos hs]
      constructor
      · intro id
        show id ∈ (w.localStore.removePendingTransaction tx.id).syncState.pendingTransactions ↔ _
        rw [LocalStore.mem_removePendingTransaction]
        simp only [List.mem_cons]
        constructor
        · rintro ⟨hmem, hne⟩
          obtain ⟨hid, hnc⟩ := (hp id).mp hmem
          exact ⟨hid, fun hor => hor.elim (fun he => hne he) hnc⟩
        · rintro ⟨hid, hnc⟩
          exact ⟨(hp id).mpr ⟨hid, fun hin => hnc (Or.inr hin)⟩, fun he => hnc (Or.inl he)⟩
      · intro id hid
        rcases List.mem_cons.mp hid with rfl | hin
        · exact htx
        · exact hc id hin
    · rw [if_neg hs]
      by_cases hr : remaining = 0
      · rw [if_pos hr]
        exact ⟨hp, hc⟩
      · rw [if_neg hr]
        exact SyncService.attemptLoop_inv userId tx out remaining (attempt + 1) _ ⟨hp, hc⟩ htx

/-- One loop body of `_syncTransactions` preserves the pending-set
invariant when the loaded record is locally stored. -/
theorem SyncService.drainOne_inv (env : SyncEnv) (w : World) (otx : Option Transaction)
    (hw : WorldInv w)
    (h : ∀ tx, otx = some tx → tx.id ∈ w.localStore.transactions.map Transaction.id) :
    WorldInv (SyncService.drainOne env w otx) := by
  cases otx with
  | none => exact hw
  | some tx =>
    exact SyncService.attemptLoop_inv env.userId tx (env.pushOutcome tx.id)
      SyncService.maxRetries 0 w hw (h tx rfl)

/-- The whole drain loop preserves the pending-set invariant when
every loaded record is locally stored. -/
theorem SyncService.foldDrain_inv (env : SyncEnv) :
    ∀ (txs : List (Option Transaction)) (w : World), WorldInv w →
      (∀ tx, some tx ∈ txs → tx.id ∈ w.localStore.transactions.map Transaction.id) →
      WorldInv (txs.foldl (SyncService.drainOne env) w)
  | [], _, hw, _ => hw
  | otx :: txs, w, hw, hall => by
    rw [List.foldl_cons]
    have hw' : WorldInv (SyncService.drainOne env w otx) :=
      SyncService.drainOne_inv env w otx hw
        (fun tx he => hall tx (by rw [he]; exact List.mem_cons_self _ _))
    apply SyncService.foldDrain_inv env txs _ hw'
    intro tx hmem
    obtain ⟨⟨p, hp⟩, _, _, _⟩ := SyncService.drainOne_frame env w otx
    rw [hp]
    exact hall tx (List.mem_cons_of_mem _ hmem)

/-- `_syncTransactions` preserves the pending-set invariant. -/
theorem SyncService._syncTransactions_inv (env : SyncEnv) (w : World) (hw : WorldInv w) :
    WorldInv (SyncService._syncTransactions w env) := by
  apply SyncService.foldDrain_inv env _ w hw
  intro tx hmem
  obtain ⟨id, _, hfind⟩ := List.mem_map.mp hmem
  exact List.mem_map.mpr ⟨tx, List.mem_of_find?_eq_some hfind, rfl⟩

/-- The invariant transfers between worlds that agree on the pending
set, the transactions collection and the confirmed set. -/
theorem WorldInv.transfer (w w' : World)
    (hpend : w'.localStore.syncState.pendingTransactions =
      w.localStore.syncState.pendingTransactions)
    (htr : w'.localStore.transactions = w.localStore.transactions)
    (hconf : w'.confirmed = w.confirmed) (hw : WorldInv w) : WorldInv w' := by
  obtain ⟨hp, hc⟩ := hw
  constructor
  · intro id
    rw [pendingInv] at hp
    rw [hpend, htr, hconf]
    exact hp id
  · intro id hid
    rw [htr]
    exact hc id (hconf ▸ hid)

/-- Saving a fresh transaction locally and marking it pending
preserves the pending-set invariant (shared shape of the offline
branch and the failed-push branch of `saveTransaction`). -/
theorem SyncService.savePending_inv (w : World) (tx : Transaction) (r' : RemoteStore)
    (hw : WorldInv w)
    (hfresh : tx.id ∉ w.localStore.transactions.map Transaction.id) :
    WorldInv { w with remote := r',
                      localStore := (w.localStore.saveTransaction tx).addPendingTransaction tx.id } := by
  obtain ⟨hp, hc⟩ := hw
  have htx := LocalStore.saveTransaction_fresh w.localStore tx hfresh
  have hss := (LocalStore.saveTransaction_syncState w.localStore tx).1
  constructor
  · intro id
    show id ∈ ((w.localStore.saveTransaction tx).addPendingTransaction tx.id).syncState.pendingTransactions ↔ _
    rw [LocalStore.mem_addPendingTransaction, hss]
    show _ ↔ id ∈ ((w.localStore.saveTransaction tx).addPendingTransaction tx.id).transactions.map Transaction.id ∧ id ∉ w.confirmed
    rw [(LocalStore.addPendingTransaction_transactions _ _).1, htx]
    simp only [List.map_append, List.map_cons, List.map_nil, List.mem_append,
      List.mem_cons, List.not_mem_nil, or_false]
    constructor
    · rintro (hmem | rfl)
      · obtain ⟨hid, hnc⟩ := (hp id).mp hmem
        exact ⟨Or.inl hid, hnc⟩
      · refine ⟨Or.inr rfl, fun hcin => hfresh (hc _ hcin)⟩
    · rintro ⟨hid | rfl, hnc⟩
      · exact Or.inl ((hp id).mpr ⟨hid, hnc⟩)
      · exact Or.inr rfl
  · intro id hid
    show id ∈ ((w.localStore.saveTransaction tx).addPendingTransaction tx.id).transactions.map Transaction.id
    rw [(LocalStore.addPendingTransaction_transactions _ _).1, htx]
    simp only [List.map_append, List.mem_append]
    exact Or.inl (hc id hid)

/-- `saveTransaction` with a fresh transaction id preserves the
pending-set invariant. -/
theorem SyncService.saveTransaction_inv (w : World) (tx : Transaction) (userId : String)
    (o : AttemptOutcome) (now : String) (hw : WorldInv w)
    (hfresh : tx.id ∉ w.localStore.transactions.map Transaction.id) :
    WorldInv (SyncService.saveTransaction w tx userId o now).1 := by
  obtain ⟨hp, hc⟩ := hw
  have htx := LocalStore.saveTransaction_fresh w.localStore tx hfresh
  have hss := (LocalStore.saveTransaction_syncState w.localStore tx).1
  simp only [SyncService.saveTransaction]
  by_cases hon : (w.localStore.saveTransaction tx).getSyncState.isOnline = true
  · rw [if_pos hon]
    by_cases hsc : (SyncService.attemptDeliver userId tx o w.remote).success = true
    · rw [if_pos hsc]
      constructor
      · intro id
        show id ∈ ((w.localStore.saveTransaction tx).updateSyncState _).syncState.pendingTransactions ↔ _
        show id ∈ (w.localStore.saveTransaction tx).getSyncState.pendingTransactions ↔ _
        rw [LocalStore.getSyncState, hss]
        show _ ↔ id ∈ ((w.localStore.saveTransaction tx).updateSyncState _).transactions.map Transaction.id ∧
          id ∉ tx.id :: w.confirmed
        rw [LocalStore.updateSyncState_transactions, htx]
        simp only [List.map_append, List.map_cons, List.map_nil, List.mem_append,
          List.mem_cons, List.not_mem_nil, or_false]
        constructor
        · intro hmem
          obtain ⟨hid, hnc⟩ := (hp id).mp hmem
          refine ⟨Or.inl hid, ?_⟩
          rintro (rfl | hin)
          · exact hfresh hid
          · exact hnc hin
        · rintro ⟨hid | rfl, hnc⟩
          · exact (hp id).mpr ⟨hid, fun hin => hnc (Or.inr hin)⟩
          · exact absurd (Or.inl rfl) hnc
      · intro id hid
        show id ∈ ((w.localStore.saveTransaction tx).updateSyncState _).transactions.map Transaction.id
        rw [LocalStore.updateSyncState_transactions, htx]
        simp only [List.map_append, List.map_cons, List.map_nil, List.mem_append,
          List.mem_cons, List.not_mem_nil, or_false]
        rcases List.mem_cons.mp hid with rfl | hin
        · exact Or.inr rfl
        · exact Or.inl (hc id hin)
    · rw [if_neg hsc]
      exact SyncService.savePending_inv w tx _ ⟨hp, hc⟩ hfresh
  · rw [if_neg hon]
    exact SyncService.savePending_inv w tx w.remote ⟨hp, hc⟩ hfresh

/-- `sync` preserves the pending-set invariant. -/
theorem SyncService.sync_inv (w : World) (env : SyncEnv) (hw : WorldInv w) :
    WorldInv (SyncService.sync w env).1 := by
  simp only [SyncService.sync]
  by_cases hg : (!w.isOnline || w.isSyncing) = true
  · rw [if_pos hg]
    exact hw
  · rw [if_neg hg]
    cases hsp : SyncService.syncProducts w.localStore true env.fetchProducts with
    | none =>
      simp only [hsp]
      exact hw
    | some l =>
      simp only [hsp]
      obtain ⟨htr, hst⟩ := SyncService.syncProducts_frame _ _ _ _ hsp
      have hw1 : WorldInv { w with isSyncing := true, localStore := l } := by
        refine WorldInv.transfer w _ ?_ htr rfl hw
        rw [hst]
      have hw2 := SyncService._syncTransactions_inv env _ hw1
      refine WorldInv.transfer _ _ rfl rfl rfl hw2

/-- The public `syncTransactions` preserves the pending-set
invariant. -/
theorem SyncService.syncTransactions_inv (w : World) (env : SyncEnv) (hw : WorldInv w) :
    WorldInv (SyncService.syncTransactions w env).1 := by
  simp only [SyncService.syncTransactions]
  by_cases h1 : (!w.isOnline) = true
  · rw [if_pos h1]
    exact hw
  · rw [if_neg h1]
    by_cases h2 : w.isSyncing = true
    · rw [if_pos h2]
      exact hw
    · rw [if_neg h2]
      have hw1 : WorldInv { w with isSyncing := true } := hw
      have hw2 := SyncService._syncTransactions_inv env _ hw1
      exact WorldInv.transfer _ _ rfl rfl rfl hw2

/-- Every reachable world satisfies the pending-set invariant and the
confirmed-set closure. -/
theorem reachable_inv (w : World) (h : Reachable w) : WorldInv w := by
  induction h with
  | init a b =>
    constructor
    · intro id
      simp [initialWorld]
    · intro id hid
      simp [initialWorld] at hid
  | persist tx userId o now hfresh _ ih =>
    exact SyncService.saveTransaction_inv _ tx userId o now ih hfresh
  | reconcile env _ ih =>
    exact SyncService.sync_inv _ env ih
  | drain env _ ih =>
    exact SyncService.syncTransactions_inv _ env ih
  | onlineEvent env _ ih =>
    exact SyncService.sync_inv _ env ih
  | offlineEvent _ ih =>
    exact ih

/-- Looking a transaction up only depends on the transactions
collection. -/
theorem LocalStore.getTransaction_congr (l l' : LocalStore)
    (h : l'.transactions = l.transactions) (id : String) :
    l'.getTransaction id = l.getTransaction id := by
  unfold LocalStore.getTransaction
  rw [h]

/-- A retry loop that is allowed at least one attempt logs its first
attempt at the current clock. -/
theorem SyncService.attemptLoop_logs (userId : String) (tx : Transaction)
    (out : Nat → AttemptOutcome) (remaining attempt : Nat) (w : World)
    (h : remaining ≠ 0) :
    (tx.id, w.clock) ∈ (SyncService.attemptLoop userId tx out remaining attempt w).log := by
  cases remaining with
  | zero => exact absurd rfl h
  | succ r =>
    simp only [SyncService.attemptLoop]
    by_cases hs : (SyncService.attemptDeliver userId tx (out attempt) w.remote).success = true
    · rw [if_pos hs]
      simp
    · rw [if_neg hs]
      by_cases hr : r = 0
      · rw [if_pos hr]
        simp
      · rw [if_neg hr]
        obtain ⟨_, _, _, ⟨s, hl⟩⟩ :=
          SyncService.attemptLoop_frame userId tx out r (attempt + 1)
            { w with
                remote := (SyncService.attemptDeliver userId tx (out attempt) w.remote).remote,
                log := w.log ++ [(tx.id, w.clock)],
                clock := w.clock + SyncService.retryDelay }
        rw [hl]
        simp

/-- Every record loaded by the drain loop gets at least one logged
delivery attempt: one record's failures never prevent the attempts for
the records after it. -/
theorem SyncService.foldDrain_attempts (env : SyncEnv) :
    ∀ (txs : List (Option Transaction)) (w : World) (tx : Transaction), some tx ∈ txs →
      ∃ t, (tx.id, t) ∈ (txs.foldl (SyncService.drainOne env) w).log
  | [], _, _, hmem => absurd hmem (List.not_mem_nil _)
  | otx :: txs, w, tx, hmem => by
    rw [List.foldl_cons]
    rcases List.mem_cons.mp hmem with heq | hin
    · obtain ⟨_, _, _, ⟨s, hl⟩⟩ := SyncService.foldDrain_frame env txs (SyncService.drainOne env w otx)
      refine ⟨w.clock, ?_⟩
      rw [hl]
      apply List.mem_append_left
      rw [← heq]
      exact SyncService.attemptLoop_logs env.userId tx (env.pushOutcome tx.id)
        SyncService.maxRetries 0 w (by simp [SyncService.maxRetries])
    · exact SyncService.foldDrain_attempts env txs (SyncService.drainOne env w otx) tx hin

/-- A product sync throws only when the fetch itself throws. -/
theorem SyncService.syncProducts_none (l : LocalStore) (b : Bool)
    (f : Option (List Product)) (h : SyncService.syncProducts l b f = none) :
    f = none := by
  cases hf : f with
  | none => rfl
  | some ps =>
    rw [hf] at h
    simp only [SyncService.syncProducts] at h
    split at h
    · exact absurd h (by simp)
    · split at h <;> exact absurd h (by simp)

/-- `sync` never writes the persisted `isOnline` hint. -/
theorem SyncService.sync_persistedOnline (w : World) (env : SyncEnv) :
    (SyncService.sync w env).1.localStore.syncState.isOnline =
      w.localStore.syncState.isOnline := by
  simp only [SyncService.sync]
  by_cases hg : (!w.isOnline || w.isSyncing) = true
  · rw [if_pos hg]
  · rw [if_neg hg]
    cases hsp : SyncService.syncProducts w.localStore true env.fetchProducts with
    | none => simp only [hsp]
    | some l =>
      simp only [hsp]
      obtain ⟨_, hst⟩ := SyncService.syncProducts_frame _ _ _ _ hsp
      obtain ⟨⟨p, hp⟩, _, _, _⟩ :=
        SyncService.foldDrain_frame env
          (({ w with isSyncing := true, localStore := l } : World).localStore.syncState.pendingTransactions.map
            (fun id => ({ w with isSyncing := true, localStore := l } : World).localStore.getTransaction id))
          { w with isSyncing := true, localStore := l }

      show (SyncService._syncTransactions { w with isSyncing := true, localStore := l } env).localStore.syncState.isOnline =
        w.localStore.syncState.isOnline
      simp only [SyncService._syncTransactions]
      rw [hp]
      show l.syncState.isOnline = _
      rw [hst]

end EngineLemmas

/-- C1: delivering the same transaction twice is claimed to leave the
Remote Store's record and its item rows equal to a single delivery.
On the code this fails for the item rows: `transaction_items` is keyed
only by a generated UUID (`id UUID PRIMARY KEY DEFAULT
gen_random_uuid()`) and the payload built in `sync.ts` carries no
`id`, so each redelivery of `sampleTx` (one line item) inserts a fresh
row: the transaction row is overwritten with identical values, but the
item rows for `"t1"` go from one to two. -/
theorem c1_redelivery_duplicates_item_rows :
    (deliverSampleOnce (deliverSampleOnce RemoteStore.empty)).transactions =
      (deliverSampleOnce RemoteStore.empty).transactions ∧
    ((deliverSampleOnce RemoteStore.empty).itemRowsFor "t1").length = 1 ∧
    ((deliverSampleOnce (deliverSampleOnce RemoteStore.empty)).itemRowsFor "t1").length = 2 ∧
    (deliverSampleOnce (deliverSampleOnce RemoteStore.empty)).itemRowsFor "t1" ≠
      (deliverSampleOnce RemoteStore.empty).itemRowsFor "t1" := by
  refine ⟨rfl, rfl, rfl, ?_⟩
  decide

/-- C2: in every state reachable by the engine's public operations,
the pending set equals exactly the set of locally stored transaction
ids not yet confirmed delivered to the Remote Store. -/
theorem c2_pending_set_invariant (w : World) (h : Reachable w) : pendingInv w :=
  (reachable_inv w h).1

/-- Witness for C2 at a concrete reachable state: a fresh transaction
persisted while the persisted online hint is off. -/
theorem c2_pending_set_invariant_witness :
    pendingInv (SyncService.saveTransaction (initialWorld true false) sampleTx "u1"
      itemsFailOutcome "n").1 :=
  c2_pending_set_invariant _
    (Reachable.persist sampleTx "u1" itemsFailOutcome "n" (by simp [initialWorld])
      (Reachable.init true false))

/-- C3: with every remote write failing, one drain pass attempts a
pending transaction exactly 3 times (`maxRetries`), logged at the
start clock and then 5000 ms (= 5 seconds, `retryDelay`) after each
previous attempt, and leaves the Local Store — in particular the
pending set — untouched: the id is neither deleted nor marked failed.
The final conjunct restates this for a whole `_syncTransactions` pass
whose pending set holds exactly this transaction. -/
theorem c3_retry_ceiling (userId : String) (tx : Transaction) (out : Nat → AttemptOutcome)
    (w : World) (hfail : ∀ n, (out n).ok = false) :
    (SyncService.attemptLoop userId tx out SyncService.maxRetries 0 w).log =
      w.log ++ [(tx.id, w.clock), (tx.id, w.clock + 5000), (tx.id, w.clock + 10000)] ∧
    (SyncService.attemptLoop userId tx out SyncService.maxRetries 0 w).localStore =
      w.localStore ∧
    (SyncService.attemptLoop userId tx out SyncService.maxRetries 0 w).confirmed =
      w.confirmed ∧
    SyncService.maxRetries = 3 ∧ SyncService.retryDelay = 5 * 1000 ∧
    (∀ env : SyncEnv,
      w.localStore.syncState.pendingTransactions = [tx.id] →
      w.localStore.getTransaction tx.id = some tx →
      env.pushOutcome tx.id = out → env.userId = userId →
      (SyncService._syncTransactions w env).log =
        w.log ++ [(tx.id, w.clock), (tx.id, w.clock + 5000), (tx.id, w.clock + 10000)] ∧
      tx.id ∈ (SyncService._syncTransactions w env).localStore.syncState.pendingTransactions) := by
  obtain ⟨hlc, hcf, hlog⟩ :=
    SyncService.attemptLoop_fail userId tx out hfail SyncService.maxRetries 0 w
  have hlog' : (SyncService.attemptLoop userId tx out SyncService.maxRetries 0 w).log =
      w.log ++ [(tx.id, w.clock), (tx.id, w.clock + 5000), (tx.id, w.clock + 10000)] := by
    rw [hlog]
    show w.log ++ attemptTimes tx.id w.clock 3 = _
    simp [attemptTimes, SyncService.retryDelay, Nat.add_assoc]
  refine ⟨hlog', hlc, hcf, rfl, rfl, ?_⟩
  intro env hpend htx hout huser
  simp only [SyncService._syncTransactions]
  rw [hpend]
  simp only [List.map_cons, List.map_nil, htx, List.foldl_cons, List.foldl_nil]
  simp only [SyncService.drainOne]
  rw [huser, hout]
  refine ⟨hlog', ?_⟩
  rw [hlc, hpend]
  exact List.mem_cons_self _ _

/-- Witness for C3 on the spec's end-to-end transaction with every
attempt failing at the user lookup. -/
theorem c3_retry_ceiling_witness :
    (∀ n, (failOut n).ok = false) ∧
    (SyncService.attemptLoop "u1" sampleTx failOut SyncService.maxRetries 0
      samplePendingWorld).log = [("t1", 0), ("t1", 5000), ("t1", 10000)] ∧
    "t1" ∈ (SyncService.attemptLoop "u1" sampleTx failOut SyncService.maxRetries 0
      samplePendingWorld).localStore.syncState.pendingTransactions := by
  have h := c3_retry_ceiling "u1" sampleTx failOut samplePendingWorld (fun _ => rfl)
  refine ⟨fun _ => rfl, h.1, ?_⟩
  rw [h.2.1]
  exact List.mem_cons_self _ _

/-- C4 counterexample: the claim quantifies over every fetched remote
set, but `syncProducts` returns before clearing when the fetch yields
an empty list, so a full refresh against an empty remote set leaves
the stale local cache (here holding `sampleProductA`) in place instead
of emptying it. -/
theorem c4_empty_fetch_keeps_stale_cache :
    SyncService.syncProducts sampleCacheA true (some []) = some sampleCacheA ∧
    sampleCacheA.products ≠ ([] : List Product) := by
  refine ⟨rfl, ?_⟩
  decide

/-- C4 (amended): after a full catalog refresh whose fetch returns a
NONEMPTY product set, the local cache equals exactly the fetched
remote set (replace, never merge); a refresh whose fetch returns the
empty set leaves the cache unchanged. -/
theorem c4_full_refresh_replaces (l : LocalStore) (ps : List Product) (h : ps ≠ []) :
    SyncService.syncProducts l true (some ps) = some { l with products := ps } ∧
    SyncService.syncProducts l true (some []) = some l := by
  constructor
  · simp only [SyncService.syncProducts]
    rw [if_neg (by simpa using h)]
    simp [LocalStore.clearProducts, LocalStore.saveProducts]
  · rfl

/-- Witness for C4 (amended) on a one-product fetch against the
`sampleProductA` cache. -/
theorem c4_full_refresh_replaces_witness :
    ([sampleProductA] : List Product) ≠ [] ∧
    SyncService.syncProducts sampleCacheA true (some [sampleProductA]) =
      some { sampleCacheA with products := [sampleProductA] } :=
  ⟨by decide, (c4_full_refresh_replaces sampleCacheA [sampleProductA] (by decide)).1⟩

/-- C5: whatever the connectivity hint and the remote outcome,
`saveTransaction` writes the transaction to the Local Store before any
other step, so after it returns — normally or by throwing — the
transaction is retrievable locally. -/
theorem c5_local_durability (w : World) (tx : Transaction) (userId : String)
    (o : AttemptOutcome) (now : String) :
    (SyncService.saveTransaction w tx userId o now).1.localStore.getTransaction tx.id =
      some tx := by
  simp only [SyncService.saveTransaction]
  by_cases hon : (w.localStore.saveTransaction tx).getSyncState.isOnline = true
  · rw [if_pos hon]
    by_cases hsc : (SyncService.attemptDeliver userId tx o w.remote).success = true
    · rw [if_pos hsc]
      show ((w.localStore.saveTransaction tx).updateSyncState _).getTransaction tx.id = some tx
      rw [LocalStore.getTransaction_congr _ _ (LocalStore.updateSyncState_transactions _ _)]
      exact LocalStore.getTransaction_saveTransaction w.localStore tx
    · rw [if_neg hsc]
      show ((w.localStore.saveTransaction tx).addPendingTransaction tx.id).getTransaction tx.id =
        some tx
      rw [LocalStore.getTransaction_congr _ _
        (LocalStore.addPendingTransaction_transactions _ _).1]
      exact LocalStore.getTransaction_saveTransaction w.localStore tx
  · rw [if_neg hon]
    show ((w.localStore.saveTransaction tx).addPendingTransaction tx.id).getTransaction tx.id =
      some tx
    rw [LocalStore.getTransaction_congr _ _
      (LocalStore.addPendingTransaction_transactions _ _).1]
    exact LocalStore.getTransaction_saveTransaction w.localStore tx

/-- C6: in one delivery attempt the items upsert is reached only after
the user lookup and the transaction upsert succeeded; the attempt as a
whole succeeds exactly when all three steps do; a failed attempt in
`saveTransaction`'s online path is reported as failed, leaves the id
pending and confirms nothing; and a failed final drain attempt leaves
the Local Store and the confirmed set untouched — no partial-success
state is recorded anywhere. -/
theorem c6_ordered_pair_delivery (userId : String) (tx : Transaction) (o : AttemptOutcome)
    (r : RemoteStore) (w : World) (now : String) :
    ((SyncService.attemptDeliver userId tx o r).itemsAttempted = true →
      o.authOk = true ∧ o.txOk = true) ∧
    ((SyncService.attemptDeliver userId tx o r).success = o.ok) ∧
    (o.ok = false → w.localStore.syncState.isOnline = true →
      (SyncService.saveTransaction w tx userId o now).2 = SaveOutcome.syncFailed ∧
      tx.id ∈ (SyncService.saveTransaction w tx userId o now).1.localStore.syncState.pendingTransactions ∧
      (SyncService.saveTransaction w tx userId o now).1.confirmed = w.confirmed) ∧
    (o.ok = false →
      (SyncService.attemptLoop userId tx (fun _ => o) 1 0 w).localStore = w.localStore ∧
      (SyncService.attemptLoop userId tx (fun _ => o) 1 0 w).confirmed = w.confirmed) := by
  refine ⟨SyncService.attemptDeliver_itemsAttempted userId tx o r,
          SyncService.attemptDeliver_success userId tx o r, ?_, ?_⟩
  · intro hok hon
    have hsc : ¬(SyncService.attemptDeliver userId tx o w.remote).success = true := by
      rw [SyncService.attemptDeliver_success, hok]
      simp
    simp only [SyncService.saveTransaction]
    have hon' : (w.localStore.saveTransaction tx).getSyncState.isOnline = true := by
      rw [LocalStore.getSyncState, (LocalStore.saveTransaction_syncState w.localStore tx).1]
      exact hon
    rw [if_pos hon', if_neg hsc]
    refine ⟨rfl, ?_, rfl⟩
    show tx.id ∈ ((w.localStore.saveTransaction tx).addPendingTransaction tx.id).syncState.pendingTransactions
    rw [LocalStore.mem_addPendingTransaction]
    exact Or.inr rfl
  · intro hok
    obtain ⟨h1, h2, _⟩ :=
      SyncService.attemptLoop_fail userId tx (fun _ => o) (fun _ => hok) 1 0 w
    exact ⟨h1, h2⟩

/-- Witness for C6 with an outcome failing exactly at the items
upsert, against the pending sample world. -/
theorem c6_ordered_pair_delivery_witness :
    (SyncService.attemptDeliver "u1" sampleTx itemsFailOutcome RemoteStore.empty).itemsAttempted = true ∧
    itemsFailOutcome.authOk = true ∧ itemsFailOutcome.txOk = true ∧
    itemsFailOutcome.ok = false ∧
    samplePendingWorld.localStore.syncState.isOnline = true ∧
    (SyncService.saveTransaction samplePendingWorld sampleTx "u1" itemsFailOutcome "n").2 =
      SaveOutcome.syncFailed ∧
    (SyncService.attemptLoop "u1" sampleTx (fun _ => itemsFailOutcome) 1 0
      samplePendingWorld).confirmed = samplePendingWorld.confirmed := by
  have h := c6_ordered_pair_delivery "u1" sampleTx itemsFailOutcome RemoteStore.empty
    samplePendingWorld "n"
  exact ⟨rfl, (h.1 rfl).1, (h.1 rfl).2, rfl, rfl, (h.2.2.1 rfl rfl).1, (h.2.2.2 rfl).2⟩

/-- C7: calling `sync` while the in-memory online flag is off or while
a pass is already in flight returns immediately with the state
unchanged and without starting the reconciliation body (the returned
flag is `false`): at most one pass runs at a time and nothing is
queued. -/
theorem c7_reconcile_noop (w : World) (env : SyncEnv)
    (h : w.isSyncing = true ∨ w.isOnline = false) :
    SyncService.sync w env = (w, false) := by
  have hg : (!w.isOnline || w.isSyncing) = true := by
    rcases h with h | h <;> simp [h]
  simp only [SyncService.sync]
  rw [if_pos hg]

/-- Witness for C7: a second `sync` on a world whose in-flight guard
is set is the identity. -/
theorem c7_reconcile_noop_witness :
    (syncingWorld.isSyncing = true ∨ syncingWorld.isOnline = false) ∧
    SyncService.sync syncingWorld sampleEnv = (syncingWorld, false) :=
  ⟨Or.inl rfl, c7_reconcile_noop syncingWorld sampleEnv (Or.inl rfl)⟩

/-- C8: whatever the per-transaction outcomes (including schedules on
which some transactions exhaust all retries and stay pending), a
reconciliation pass that starts (online, not already syncing, products
fetch succeeds) runs to completion — the body runs, the in-flight
guard is released, no error reaches the caller — and every pending
transaction whose record is locally stored gets at least one logged
delivery attempt: one transaction's failure never blocks the rest of
the queue. -/
theorem c8_drain_isolation (w : World) (env : SyncEnv)
    (h1 : w.isSyncing = false) (h2 : w.isOnline = true)
    (h3 : env.fetchProducts ≠ none) :
    (SyncService.sync w env).2 = true ∧
    (SyncService.sync w env).1.isSyncing = false ∧
    ∀ id ∈ w.localStore.syncState.pendingTransactions,
      ∀ tx, w.localStore.getTransaction id = some tx →
        ∃ t, (id, t) ∈ (SyncService.sync w env).1.log := by
  have hg : ¬(!w.isOnline || w.isSyncing) = true := by
    rw [h1, h2]
    simp
  simp only [SyncService.sync]
  rw [if_neg hg]
  cases hsp : SyncService.syncProducts w.localStore true env.fetchProducts with
  | none => exact absurd (SyncService.syncProducts_none _ _ _ hsp) h3
  | some l =>
    simp only [hsp]
    refine ⟨trivial, trivial, ?_⟩
    intro id hid tx htx
    obtain ⟨htr, hst⟩ := SyncService.syncProducts_frame _ _ _ _ hsp
    show ∃ t, (id, t) ∈ (SyncService._syncTransactions
      { w with isSyncing := true, localStore := l } env).log
    simp only [SyncService._syncTransactions]
    have htx' : l.getTransaction id = some tx := by
      rw [LocalStore.getTransaction_congr w.localStore l htr id]
      exact htx
    have hmem : some tx ∈
        (({ w with isSyncing := true, localStore := l } : World).localStore.syncState.pendingTransactions.map
          (fun i => ({ w with isSyncing := true, localStore := l } : World).localStore.getTransaction i)) := by
      refine List.mem_map.mpr ⟨id, ?_, htx'⟩
      show id ∈ l.syncState.pendingTransactions
      rw [hst]
      exact hid
    have hidtx : tx.id = id := by
      have h' : w.localStore.transactions.find? (fun t => t.id == id) = some tx := htx
      have h2 := List.find?_some h'
      simpa using h2
    obtain ⟨t, hmemlog⟩ := SyncService.foldDrain_attempts env _ _ tx hmem
    refine ⟨t, ?_⟩
    rw [← hidtx]
    exact hmemlog

/-- Witness for C8: the pending sample world drained with every items
upsert failing still completes the pass and logs an attempt for the
pending transaction. -/
theorem c8_drain_isolation_witness :
    samplePendingWorld.isSyncing = false ∧ samplePendingWorld.isOnline = true ∧
    sampleEnvFail.fetchProducts ≠ none ∧
    (SyncService.sync samplePendingWorld sampleEnvFail).2 = true ∧
    ∃ t, ("t1", t) ∈ (SyncService.sync samplePendingWorld sampleEnvFail).1.log := by
  have h := c8_drain_isolation samplePendingWorld sampleEnvFail rfl rfl (by
    simp [sampleEnvFail])
  refine ⟨rfl, rfl, by simp [sampleEnvFail], h.1, ?_⟩
  exact h.2.2 "t1" (List.mem_cons_self _ _) sampleTx rfl

/-- C9: `getTransactionSyncStatus` answers `pending` exactly when the
id is in the persisted pending set and `synced` otherwise; although
its declared result type has a third constructor `error`, no input and
no store state makes it return that value. -/
theorem c9_sync_status_two_states (l : LocalStore) (id : String) :
    (SyncService.getTransactionSyncStatus l id = SyncService.SyncStatus.pending ↔
      id ∈ l.syncState.pendingTransactions) ∧
    (SyncService.getTransactionSyncStatus l id = SyncService.SyncStatus.synced ↔
      id ∉ l.syncState.pendingTransactions) ∧
    SyncService.getTransactionSyncStatus l id ≠ SyncService.SyncStatus.error := by
  unfold SyncService.getTransactionSyncStatus
  by_cases h : id ∈ l.syncState.pendingTransactions <;> simp [h]

/-- C10: the decision whether `saveTransaction` attempts the direct
remote push reads only the persisted `SyncState.isOnline` hint:
flipping the engine's in-memory `isOnline` field changes neither the
resulting state (beyond that very field) nor the reported outcome.
The connectivity handlers keep the persisted hint untouched: the
offline handler only flips the in-memory flag, and the online handler
(flag flip plus triggered `sync`) never writes `SyncState.isOnline`. -/
theorem c10_push_decision_persisted_flag (w : World) (tx : Transaction) (userId : String)
    (o : AttemptOutcome) (now : String) (b : Bool) (env : SyncEnv) :
    ((SyncService.saveTransaction { w with isOnline := b } tx userId o now).1 =
      { (SyncService.saveTransaction w tx userId o now).1 with isOnline := b }) ∧
    ((SyncService.saveTransaction { w with isOnline := b } tx userId o now).2 =
      (SyncService.saveTransaction w tx userId o now).2) ∧
    ((SyncService.handleOffline w).localStore = w.localStore) ∧
    ((SyncService.handleOnline w env).1.localStore.syncState.isOnline =
      w.localStore.syncState.isOnline) := by
  refine ⟨?_, ?_, rfl, ?_⟩
  · cases w
    simp only [SyncService.saveTransaction]
    split
    · split <;> rfl
    · rfl
  · cases w
    simp only [SyncService.saveTransaction]
    split
    · split <;> rfl
    · rfl
  · show (SyncService.sync { w with isOnline := true } env).1.localStore.syncState.isOnline = _
    rw [SyncService.sync_persistedOnline]

/-- Witness for C5: the sample transaction is retrievable locally
after a persist whose direct push was skipped (persisted hint off). -/
theorem c5_local_durability_witness :
    (SyncService.saveTransaction (initialWorld true false) sampleTx "u1" itemsFailOutcome
      "n").1.localStore.getTransaction "t1" = some sampleTx :=
  c5_local_durability (initialWorld true false) sampleTx "u1" itemsFailOutcome "n"

/-- Witness for C9 on the pending sample store: a pending id, a
synced id, and never `error`. -/
theorem c9_sync_status_two_states_witness :
    SyncService.getTransactionSyncStatus samplePendingWorld.localStore "t1" =
      SyncService.SyncStatus.pending ∧
    SyncService.getTransactionSyncStatus samplePendingWorld.localStore "t2" =
      SyncService.SyncStatus.synced ∧
    SyncService.getTransactionSyncStatus samplePendingWorld.localStore "t1" ≠
      SyncService.SyncStatus.error := by
  have h1 := c9_sync_status_two_states samplePendingWorld.localStore "t1"
  have h2 := c9_sync_status_two_states samplePendingWorld.localStore "t2"
  exact ⟨h1.1.mpr (List.mem_cons_self _ _), h2.2.1.mpr (by decide), h1.2.2⟩

/-- Witness for C10 at the pending sample world: flipping the
in-memory flag changes nothing observable, and the offline handler
leaves the Local Store alone. -/
theorem c10_push_decision_persisted_flag_witness :
    (SyncService.saveTransaction { samplePendingWorld with isOnline := false } sampleTx "u1"
      itemsFailOutcome "n").2 =
      (SyncService.saveTransaction samplePendingWorld sampleTx "u1" itemsFailOutcome "n").2 ∧
    (SyncService.handleOffline samplePendingWorld).localStore = samplePendingWorld.localStore :=
  ⟨(c10_push_decision_persisted_flag samplePendingWorld sampleTx "u1" itemsFailOutcome "n"
      false sampleEnv).2.1,
   (c10_push_decision_persisted_flag samplePendingWorld sampleTx "u1" itemsFailOutcome "n"
      false sampleEnv).2.2.1⟩
